import Mathlib

/-!
Verification of the go-commitlinter message-parsing and rule-verification
engine (main.go) against its natural-language specification.

The embedding works over `List Char` as the string type.  The Go regular
expression `([a-zA-Z]+)(\(.*\))?:\s+(.*)` used by `NewFormat` is modelled by
an explicit leftmost-first (Perl-style) backtracking search, exactly the
semantics of Go's regexp package for this pattern:
  * the search is unanchored: every start position is tried left to right;
  * `[a-zA-Z]+` is greedy; since the character following a shorter match of
    the type run would again be a letter (never `(` or `:`), only the maximal
    letter run can continue, so the model takes the maximal run;
  * the optional group `(\(.*\))?` is tried present-first, with the greedy
    `.*` preferring the rightmost closing `)` whose continuation matches;
    `.` matches any character except a newline;
  * `\s+` is greedy and, being followed by `(.*)` which never fails, always
    consumes the maximal whitespace run; RE2's `\s` is `[\t\n\f\r ]`;
  * `(.*)` takes the remaining characters up to a newline or the end.
-/

/-- Strings of the Go program are modelled as lists of characters. -/
abbrev Str := List Char

/-- Coerce a Lean string literal into the model's string type. -/
def str (s : String) : Str := s.data

/-- Characters matched by RE2's `\s` class, namely tab, newline, form feed,
carriage return and space. -/
def isGoSpace (c : Char) : Bool :=
  c = ' ' || c = '\t' || c = '\n' || c = '\x0c' || c = '\r'

/-- Characters matched by `[a-zA-Z]`. -/
def isAsciiLetter (c : Char) : Bool :=
  ('a' ≤ c && c ≤ 'z') || ('A' ≤ c && c ≤ 'Z')

/-- Characters matched by `.` in RE2: anything but a newline. -/
def isDotChar (c : Char) : Bool := c ≠ '\n'

/-- The error values of main.go (ErrStyle, ErrType, ErrFormat, ErrScope,
ErrSubject). -/
inductive Err where
  | ErrStyle
  | ErrType
  | ErrFormat
  | ErrScope
  | ErrSubject
deriving DecidableEq, Repr

/-- The Format struct of main.go: the three fields of a parsed message. -/
structure Format where
  type : Str
  scope : Str
  subject : Str
deriving DecidableEq, Repr

/-- Matching of the trailing part `:\s+(.*)` of the pattern against a suffix
of the line: a colon followed by at least one whitespace character; the
returned submatch of `(.*)` is the rest after the maximal whitespace run,
truncated at a newline. -/
def matchTail (l : Str) : Option Str :=
  match l with
  | [] => none
  | x :: rest =>
    if x = ':' then
      match rest with
      | [] => none
      | c :: _ =>
        if isGoSpace c then
          some ((rest.dropWhile isGoSpace).takeWhile isDotChar)
        else none
    else none

/-- All ways to read `.*\)` at the start of `inner`: pairs `(a, b)` with
`inner = a ++ ')' :: b` and no newline in `a` (RE2's `.` cannot cross a
newline), listed with `a` shortest first. -/
def closeSplits : Str → List (Str × Str)
  | [] => []
  | c :: rest =>
    (if c = ')' then [(([] : Str), rest)] else [])
      ++ (if c = '\n' then [] else (closeSplits rest).map fun p => (c :: p.1, p.2))

/-- One attempt of the pattern `([a-zA-Z]+)(\(.*\))?:\s+(.*)` at a fixed
start position (the start of `s`), with Perl-style backtracking: the
optional parenthesised group is preferred present, and its greedy `.*`
prefers the rightmost viable closing parenthesis.  Returns the submatches
(type run, raw group including its parentheses or `[]` when absent,
subject). -/
def matchAt (s : Str) : Option (Str × Str × Str) :=
  if s.takeWhile isAsciiLetter = [] then none
  else
    match s.dropWhile isAsciiLetter with
    | [] => none
    | x :: rest' =>
      if x = '(' then
        match (closeSplits rest').reverse.find? (fun p => (matchTail p.2).isSome) with
        | some p =>
          (matchTail p.2).map fun subj =>
            (s.takeWhile isAsciiLetter, '(' :: p.1 ++ [')'], subj)
        | none => none
      else
        (matchTail (x :: rest')).map fun subj =>
          (s.takeWhile isAsciiLetter, ([] : Str), subj)

/-- The unanchored leftmost search of the pattern over the whole line, as
performed by FindAllStringSubmatch with limit 1. -/
def searchFormat : Str → Option (Str × Str × Str)
  | [] => none
  | x :: rest =>
    match matchAt (x :: rest) with
    | some r => some r
    | none => searchFormat rest

/-- strings.TrimSuffix for the single character `)`. -/
def trimSuffixParen (l : Str) : Str :=
  if l.getLast? = some ')' then l.dropLast else l

/-- strings.TrimPrefix for the single character `(`. -/
def trimPrefixParen (l : Str) : Str :=
  match l with
  | '(' :: r => r
  | l => l

/-- NewFormat of main.go: run the pattern search; no match is a format
error; an empty type or subject submatch is a format error; a present
parenthesised group whose interior (after stripping one `(` and one `)`)
is empty is a scope error; otherwise the three fields are returned, the
scope being empty when no group was present. -/
def NewFormat (m : Str) : Except Err Format :=
  match searchFormat m with
  | none => .error .ErrFormat
  | some (t, g, subj) =>
    if t = [] ∨ subj = [] then .error .ErrFormat
    else if g ≠ [] then
      if trimPrefixParen (trimSuffixParen g) = [] then .error .ErrScope
      else .ok ⟨t, trimPrefixParen (trimSuffixParen g), subj⟩
    else .ok ⟨t, [], subj⟩

/-- A Go regular-expression pattern string, as consumed exclusively through
regexp.MatchString in the linters: either compilation fails, or the
compiled pattern yields an unanchored substring-match predicate. -/
inductive GoRegexp where
  | invalid
  | compiled (m : Str → Bool)

/-- regexp.MatchString: an error for an invalid pattern, otherwise whether
the pattern matches somewhere in the string. -/
def matchString (p : GoRegexp) (s : Str) : Except Unit Bool :=
  match p with
  | .invalid => .error ()
  | .compiled f => .ok (f s)

/-- A TypeRule of main.go: an allowed type together with its description
(the description is used only for rendering diagnostics). -/
structure TypeRule where
  type : Str
  description : Str
deriving DecidableEq

/-- The Config of main.go restricted to the fields the parsing and
verification engine reads; the documentation strings and the reference URL
are consumed only by the diagnostic renderer and are omitted.  The three
pattern fields hold the MatchString semantics of the corresponding
configured pattern strings. -/
structure Config where
  skipPrefixes : List Str
  typeRules : List TypeRule
  stylePattern : GoRegexp
  scopePattern : GoRegexp
  subjectPattern : GoRegexp

/-- MatchString semantics of the default style pattern `[a-z]+`: the
unanchored search succeeds iff the string contains a lowercase ASCII
letter. -/
def defaultStyleMatches (s : Str) : Bool :=
  s.any fun c => 'a' ≤ c && c ≤ 'z'

/-- Whether `w` occurs as a contiguous substring of `s`. -/
def containsSeq (w s : Str) : Bool :=
  match s with
  | [] => List.isPrefixOf w []
  | _ :: rest => List.isPrefixOf w s || containsSeq w rest

/-- MatchString semantics of the default scope pattern
`(feat|fix|perf|docs|style|refactor|test|build|chore)`: the unanchored
search succeeds iff one of the nine literals occurs as a substring. -/
def defaultScopeMatches (s : Str) : Bool :=
  [str "feat", str "fix", str "perf", str "docs", str "style",
   str "refactor", str "test", str "build", str "chore"].any
    fun w => containsSeq w s

/-- MatchString semantics of the default subject pattern `^[a-z]\w*`: the
anchor ties the match to the start and `\w*` never fails, so the search
succeeds iff the first character is a lowercase ASCII letter. -/
def defaultSubjectMatches : Str → Bool
  | [] => false
  | c :: _ => 'a' ≤ c && c ≤ 'z'

/-- DefaultConfig of main.go. -/
def DefaultConfig : Config where
  skipPrefixes := [str "Merge ", str "BREAKING: "]
  typeRules :=
    [⟨str "feat", str "for a new feature for the user, not a new feature for build script."⟩,
     ⟨str "fix", str "for a bug fix for the user, not a fix to a build script."⟩,
     ⟨str "perf", str "for performance improvements."⟩,
     ⟨str "docs", str "for changes to the documentation."⟩,
     ⟨str "style", str "for formatting changes, missing semicolons, etc."⟩,
     ⟨str "refactor", str "for refactoring production code, e.g. renaming a variable."⟩,
     ⟨str "test", str "for adding missing tests, refactoring tests; no production code change."⟩,
     ⟨str "build", str "for updating build configuration, development tools or other changes irrelevant to the user."⟩,
     ⟨str "chore", str "for updates that do not apply to the above, such as dependency updates."⟩]
  stylePattern := .compiled defaultStyleMatches
  scopePattern := .compiled defaultScopeMatches
  subjectPattern := .compiled defaultSubjectMatches

/-- scopeLinter of main.go: an empty scope passes; otherwise a MatchString
error or a non-match is a style error. -/
def scopeLinter (f : Format) (pat : GoRegexp) : Option Err :=
  if f.scope.length = 0 then none
  else
    match matchString pat f.scope with
    | .error _ => some .ErrStyle
    | .ok false => some .ErrStyle
    | .ok true => none

/-- subjectLinter of main.go: an empty subject is a format error; otherwise
a MatchString error or a non-match is a subject error. -/
def subjectLinter (f : Format) (pat : GoRegexp) : Option Err :=
  if ¬ (f.subject.length > 0) then some .ErrFormat
  else
    match matchString pat f.subject with
    | .error _ => some .ErrSubject
    | .ok false => some .ErrSubject
    | .ok true => none

/-- Model of strings.ToLower on a character.  It lowers the ASCII uppercase
range; the type field it is applied to is produced by the `[a-zA-Z]+` part
of the grammar and therefore consists of ASCII letters, on which this
agrees with Go's Unicode case mapping. -/
def goToLowerChar (c : Char) : Char :=
  if 'A' ≤ c ∧ c ≤ 'Z' then Char.ofNat (c.toNat + 32) else c

/-- Model of strings.ToLower (see goToLowerChar). -/
def goToLower (s : Str) : Str := s.map goToLowerChar

/-- typeLinter of main.go: a type equal to some vocabulary entry passes; a
type differing from its own lowercase form is a style error; otherwise a
type error. -/
def typeLinter (f : Format) (c : Config) : Option Err :=
  if c.typeRules.any (fun r => r.type == f.type) then none
  else if f.type ≠ goToLower f.type then some .ErrStyle
  else some .ErrType

/-- Verify of main.go: the type check, then the scope check, then the
subject check, stopping at the first failure. -/
def Verify (f : Format) (c : Config) : Option Err :=
  match typeLinter f c with
  | some e => some e
  | none =>
    match scopeLinter f c.scopePattern with
    | some e => some e
    | none => subjectLinter f c.subjectPattern

/-- The per-line part of run in main.go, after the message has been
obtained: a line starting with a configured skip prefix is accepted
outright; otherwise it is parsed and, on success, verified. -/
def run (s : Str) (c : Config) : Option Err :=
  if c.skipPrefixes.any (fun p => List.isPrefixOf p s) then none
  else
    match NewFormat s with
    | .error e => some e
    | .ok f => Verify f c

/-- Condition on a line: no occurrence of `:` is immediately followed by a
whitespace character.  Such a line gives the pattern `:\s+` nothing to
match anywhere. -/
def noColonSpace : Str → Bool
  | [] => true
  | [_] => true
  | a :: b :: r => (!((a == ':') && isGoSpace b)) && noColonSpace (b :: r)

-- Sanity checks against the repository's own test cases.
example : NewFormat (str "feat(test): samples") =
    .ok ⟨str "feat", str "test", str "samples"⟩ := rfl
example : NewFormat (str "feat(test):                         samples") =
    .ok ⟨str "feat", str "test", str "samples"⟩ := rfl
example : NewFormat (str "feat(test):samples") = .error .ErrFormat := rfl
example : NewFormat (str "feat: global") = .ok ⟨str "feat", [], str "global"⟩ := rfl
example : NewFormat (str "feat(): global") = .error .ErrScope := rfl
example : NewFormat (str "(test): test") = .error .ErrFormat := rfl
example : NewFormat (str "feat(test):") = .error .ErrFormat := rfl
example : NewFormat (str "feat(test):   ") = .error .ErrFormat := rfl
example : run (str "feat(test): samples") DefaultConfig = none := rfl
example : run (str "invalid(test): test") DefaultConfig = some .ErrType := rfl
example : run (str "feat(Hest): test") DefaultConfig = some .ErrStyle := rfl

/-! ## Helper lemmas about the pattern-matching model -/

/-- takeWhile over a block of satisfying elements followed by a failing
element. -/
theorem takeWhile_block {p : Char → Bool} {t : Str} {x : Char} (r : Str)
    (ht : ∀ c ∈ t, p c = true) (hx : p x = false) :
    (t ++ x :: r).takeWhile p = t := by
  induction t with
  | nil => simp [List.takeWhile_cons, hx]
  | cons a t ih =>
    have ha : p a = true := ht a (by simp)
    simp only [List.cons_append, List.takeWhile_cons, ha, if_true]
    rw [ih fun c hc => ht c (by simp [hc])]

/-- dropWhile over a block of satisfying elements followed by a failing
element. -/
theorem dropWhile_block {p : Char → Bool} {t : Str} {x : Char} (r : Str)
    (ht : ∀ c ∈ t, p c = true) (hx : p x = false) :
    (t ++ x :: r).dropWhile p = x :: r := by
  induction t with
  | nil => simp [List.dropWhile_cons, hx]
  | cons a t ih =>
    have ha : p a = true := ht a (by simp)
    simp only [List.cons_append, List.dropWhile_cons, ha, if_true]
    exact ih fun c hc => ht c (by simp [hc])

/-- dropWhile skips over a block of satisfying elements. -/
theorem dropWhile_skip {p : Char → Bool} {ws : Str} (l : Str)
    (h : ∀ c ∈ ws, p c = true) :
    (ws ++ l).dropWhile p = l.dropWhile p := by
  induction ws with
  | nil => rfl
  | cons a ws ih =>
    have ha : p a = true := h a (by simp)
    simp only [List.cons_append, List.dropWhile_cons, ha, if_true]
    exact ih fun c hc => h c (by simp [hc])

/-- Every entry of closeSplits is a genuine split at a closing
parenthesis. -/
theorem closeSplits_mem {inner : Str} {a b : Str}
    (h : (a, b) ∈ closeSplits inner) : inner = a ++ ')' :: b := by
  induction inner generalizing a b with
  | nil => simp [closeSplits] at h
  | cons c rest ih =>
    simp only [closeSplits] at h
    rcases List.mem_append.1 h with h1 | h1
    · by_cases hc : c = ')'
      · simp [hc] at h1
        obtain ⟨rfl, rfl⟩ := h1
        simp [hc]
      · simp [hc] at h1
    · by_cases hn : c = '\n'
      · simp [hn] at h1
      · simp only [hn, if_false] at h1
        obtain ⟨⟨a', b'⟩, hp, heq⟩ := List.mem_map.1 h1
        simp only [Prod.mk.injEq] at heq
        obtain ⟨rfl, rfl⟩ := heq
        simp [ih hp]

/-- A string without a closing parenthesis admits no split. -/
theorem closeSplits_of_not_mem {l : Str} (h : ')' ∉ l) : closeSplits l = [] := by
  induction l with
  | nil => rfl
  | cons c rest ih =>
    have hc : ¬ c = ')' := fun hc => h (by simp [hc])
    have hr : ')' ∉ rest := fun hr => h (by simp [hr])
    simp [closeSplits, hc, ih hr]

/-- A successful tail match exposes the colon, the first whitespace
character, and the shape of the subject submatch. -/
theorem matchTail_some {l subj : Str} (h : matchTail l = some subj) :
    ∃ c r, l = ':' :: c :: r ∧ isGoSpace c = true ∧
      subj = ((c :: r).dropWhile isGoSpace).takeWhile isDotChar := by
  unfold matchTail at h
  split at h
  · exact absurd h (by simp)
  · rename_i x rest
    split at h
    · rename_i hx
      split at h
      · exact absurd h (by simp)
      · rename_i c r
        split at h
        · rename_i hc
          exact ⟨c, r, by rw [hx], hc, by injection h with h; exact h.symm⟩
        · exact absurd h (by simp)
    · exact absurd h (by simp)

/-- The tail match for a colon followed by a whitespace run and a
non-whitespace, newline-free remainder. -/
theorem matchTail_shape {ws sub' : Str} {c : Char}
    (hws : ws ≠ []) (hwsAll : ∀ x ∈ ws, isGoSpace x = true)
    (hc : isGoSpace c = false) (hsub : '\n' ∉ sub') :
    matchTail (':' :: (ws ++ c :: sub')) = some (c :: sub') := by
  obtain ⟨w, ws', rfl⟩ : ∃ w ws', ws = w :: ws' := by
    cases ws with
    | nil => exact absurd rfl hws
    | cons w ws' => exact ⟨w, ws', rfl⟩
  have hw : isGoSpace w = true := hwsAll w (by simp)
  have hdot : ∀ x ∈ c :: sub', isDotChar x = true := by
    intro x hx
    rcases List.mem_cons.1 hx with rfl | hx
    · simp only [isDotChar, ne_eq, decide_eq_true_eq]
      intro hcn
      rw [hcn] at hc
      simp [isGoSpace] at hc
    · simp only [isDotChar, ne_eq, decide_eq_true_eq]
      exact fun hcn => hsub (hcn ▸ hx)
  have hdrop : List.dropWhile isGoSpace (w :: (ws' ++ c :: sub')) = c :: sub' := by
    rw [← List.cons_append, dropWhile_skip (c :: sub') hwsAll]
    simp [List.dropWhile_cons, hc]
  unfold matchTail
  simp only [List.cons_append, if_pos rfl, hw, if_true, hdrop,
    List.takeWhile_eq_self_iff.2 hdot]

/-- A successful attempt at one position contains a successful tail match
on a suffix. -/
theorem matchAt_some {s : Str} {r : Str × Str × Str} (h : matchAt s = some r) :
    ∃ l, l <:+ s ∧ matchTail l = some r.2.2 := by
  unfold matchAt at h
  split at h
  · exact absurd h (by simp)
  · rename_i ht
    split at h
    · exact absurd h (by simp)
    · rename_i x rest' heq
      have hsplit : s.takeWhile isAsciiLetter ++ x :: rest' = s := by
        rw [← heq]; exact List.takeWhile_append_dropWhile ..
      split at h
      · rename_i hx
        split at h
        · rename_i p hfind
          obtain ⟨subj, hmt, rfl⟩ : ∃ subj, matchTail p.2 = some subj ∧
              (s.takeWhile isAsciiLetter, '(' :: p.1 ++ [')'], subj) = r := by
            cases hmt : matchTail p.2 with
            | none => rw [hmt] at h; exact absurd h (by simp)
            | some subj => rw [hmt] at h; exact ⟨subj, rfl, by injection h⟩
          refine ⟨p.2, ?_, hmt⟩
          have h1 : p.2 <:+ rest' := by
            have := closeSplits_mem (List.mem_reverse.1 (List.mem_of_find?_eq_some hfind))
            exact ⟨p.1 ++ [')'], by simpa using this.symm⟩
          calc p.2 <:+ rest' := h1
            _ <:+ x :: rest' := ⟨[x], rfl⟩
            _ <:+ s := ⟨s.takeWhile isAsciiLetter, hsplit⟩
        · exact absurd h (by simp)
      · obtain ⟨subj, hmt, rfl⟩ : ∃ subj, matchTail (x :: rest') = some subj ∧
            (s.takeWhile isAsciiLetter, ([] : Str), subj) = r := by
          cases hmt : matchTail (x :: rest') with
          | none => rw [hmt] at h; exact absurd h (by simp)
          | some subj => rw [hmt] at h; exact ⟨subj, rfl, by injection h⟩
        exact ⟨x :: rest', ⟨s.takeWhile isAsciiLetter, hsplit⟩, hmt⟩

/-- A successful search contains a successful attempt at some suffix. -/
theorem searchFormat_some {m : Str} {r : Str × Str × Str}
    (h : searchFormat m = some r) : ∃ s, s <:+ m ∧ matchAt s = some r := by
  induction m with
  | nil => exact absurd h (by simp [searchFormat])
  | cons x rest ih =>
    rw [searchFormat] at h
    split at h
    · rename_i r' heq
      exact ⟨x :: rest, List.suffix_refl _, by rw [heq]; injection h with h; rw [h]⟩
    · obtain ⟨s, hs, hm⟩ := ih h
      exact ⟨s, hs.trans ⟨[x], rfl⟩, hm⟩

/-- noColonSpace is preserved by dropping the head. -/
theorem noColonSpace_tail {a : Char} {l : Str}
    (h : noColonSpace (a :: l) = true) : noColonSpace l = true := by
  cases l with
  | nil => rfl
  | cons b r =>
    rw [noColonSpace, Bool.and_eq_true] at h
    exact h.2

/-- noColonSpace is inherited by suffixes. -/
theorem noColonSpace_suffix {l m : Str} (hs : l <:+ m)
    (h : noColonSpace m = true) : noColonSpace l = true := by
  obtain ⟨pre, rfl⟩ := hs
  induction pre with
  | nil => exact h
  | cons a pre ih => exact ih (noColonSpace_tail h)

/-- On a line with no colon-then-whitespace pair the tail pattern matches
nowhere. -/
theorem matchTail_eq_none {l : Str} (h : noColonSpace l = true) :
    matchTail l = none := by
  cases heq : matchTail l with
  | none => rfl
  | some subj =>
    obtain ⟨c, r, rfl, hc, -⟩ := matchTail_some heq
    rw [noColonSpace] at h
    simp [hc] at h

/-- On a line with no colon-then-whitespace pair every attempt fails. -/
theorem matchAt_eq_none {s : Str} (h : noColonSpace s = true) :
    matchAt s = none := by
  cases heq : matchAt s with
  | none => rfl
  | some r =>
    obtain ⟨l, hl, hmt⟩ := matchAt_some heq
    rw [matchTail_eq_none (noColonSpace_suffix hl h)] at hmt
    exact absurd hmt (by simp)

/-- On a line with no colon-then-whitespace pair the search fails. -/
theorem searchFormat_eq_none {m : Str} (h : noColonSpace m = true) :
    searchFormat m = none := by
  induction m with
  | nil => rfl
  | cons x rest ih =>
    rw [searchFormat, matchAt_eq_none h]
    exact ih (noColonSpace_tail h)

/-- The head of a takeWhile result is the head of the list. -/
theorem takeWhile_head {p : Char → Bool} {l : Str} {c : Char}
    (h : (l.takeWhile p).head? = some c) : l.head? = some c := by
  cases l with
  | nil => simp at h
  | cons a l' =>
    rw [List.takeWhile_cons] at h
    by_cases hp : p a
    · simp [hp] at h
      simp [h]
    · simp [hp] at h

/-- The head of a dropWhile result fails the predicate. -/
theorem dropWhile_head {p : Char → Bool} {l : Str} {c : Char}
    (h : (l.dropWhile p).head? = some c) : p c = false := by
  have hd := List.head?_dropWhile_not p l
  rw [h] at hd
  exact hd

/-- The subject submatch of a successful tail match never starts with
whitespace: the greedy whitespace run has consumed it all. -/
theorem matchTail_subject_head {l subj : Str} {c : Char}
    (h : matchTail l = some subj) (hc : subj.head? = some c) :
    isGoSpace c = false := by
  obtain ⟨c', r, -, -, rfl⟩ := matchTail_some h
  exact dropWhile_head (takeWhile_head hc)

/-- Inversion of a successful parse: the search produced the type and
subject fields, and the subject is non-empty. -/
theorem NewFormat_ok {m : Str} {f : Format} (h : NewFormat m = .ok f) :
    ∃ g, searchFormat m = some (f.type, g, f.subject) ∧ f.subject ≠ [] := by
  unfold NewFormat at h
  split at h
  · exact absurd h (by simp)
  · rename_i t g subj heq
    split at h
    · exact absurd h (by simp)
    · rename_i hne
      have hsub : subj ≠ [] := fun hs => hne (Or.inr hs)
      split at h
      · split at h
        · exact absurd h (by simp)
        · injection h with h
          exact ⟨g, by rw [heq, ← h], by rw [← h]; exact hsub⟩
      · injection h with h
        exact ⟨g, by rw [heq, ← h], by rw [← h]; exact hsub⟩

/-- The type check returns nil, ErrStyle or ErrType. -/
theorem typeLinter_cases (f : Format) (c : Config) :
    typeLinter f c = none ∨ typeLinter f c = some .ErrStyle ∨
      typeLinter f c = some .ErrType := by
  unfold typeLinter
  split
  · exact Or.inl rfl
  · split
    · exact Or.inr (Or.inl rfl)
    · exact Or.inr (Or.inr rfl)

/-- The scope check returns nil or ErrStyle. -/
theorem scopeLinter_cases (f : Format) (p : GoRegexp) :
    scopeLinter f p = none ∨ scopeLinter f p = some .ErrStyle := by
  unfold scopeLinter
  split
  · exact Or.inl rfl
  · split
    · exact Or.inr rfl
    · exact Or.inr rfl
    · exact Or.inl rfl

/-- On a non-empty subject the subject check returns nil or ErrSubject. -/
theorem subjectLinter_cases (f : Format) (p : GoRegexp) (h : f.subject ≠ []) :
    subjectLinter f p = none ∨ subjectLinter f p = some .ErrSubject := by
  unfold subjectLinter
  rw [if_neg (not_not_intro (List.length_pos.2 h))]
  split
  · exact Or.inr rfl
  · exact Or.inr rfl
  · exact Or.inl rfl

/-! ## Claim theorems -/

/-- Claim C1 (code bug): under the default configuration the scope check is
claimed to accept exactly the fully lowercase non-empty scopes.  The code
instead checks the scope against the default ScopePattern
`(feat|fix|perf|docs|style|refactor|test|build|chore)`, so the fully
lowercase scope `api` is rejected with a style error, while the
non-lowercase scope `Xtest` (which contains `test`) is accepted.  This
evaluates the code at both failing inputs. -/
theorem C1_default_scope_check_eval :
    NewFormat (str "feat(api): samples") = .ok ⟨str "feat", str "api", str "samples"⟩
    ∧ Verify ⟨str "feat", str "api", str "samples"⟩ DefaultConfig = some .ErrStyle
    ∧ NewFormat (str "feat(Xtest): go") = .ok ⟨str "feat", str "Xtest", str "go"⟩
    ∧ Verify ⟨str "feat", str "Xtest", str "go"⟩ DefaultConfig = none :=
  ⟨rfl, rfl, rfl, rfl⟩

/-- Claim C2 (counterexample): the line `(test): feat: x` does not match
the grammar taken as a single match of the full grammar against the line
(its conforming portion `feat: x` is preceded by the extra characters
`(test): `, and read from the start its type is empty), yet parsing
succeeds, because the pattern search is unanchored. -/
theorem C2_counterexample :
    NewFormat (str "(test): feat: x") = .ok ⟨str "feat", [], str "x"⟩ := rfl

/-- Claim C2 (amended): if no colon in the line is immediately followed by
a whitespace character — which covers a missing colon and a colon with no
whitespace after it — then the pattern can match nowhere and parsing
returns FormatError.  (An empty type at the start of the line or extra
characters before a conforming portion do not force a FormatError, since
the search is unanchored.) -/
theorem C2_no_colon_space_format_error (m : Str) (h : noColonSpace m = true) :
    NewFormat m = .error .ErrFormat := by
  unfold NewFormat
  rw [searchFormat_eq_none h]

/-- Witness for C2: the spec's own example `feat(test):samples` (no
whitespace after the colon) is a FormatError. -/
theorem C2_no_colon_space_format_error_witness :
    NewFormat (str "feat(test):samples") = .error .ErrFormat :=
  C2_no_colon_space_format_error (str "feat(test):samples") (by decide)

/-- Claim C5: Verify runs the checks in the fixed order type, scope,
subject and short-circuits on the first failure.  (1) A failing type check
is reported as is — an ErrStyle or ErrType, never ErrSubject.  (2) For a
message whose type check passes, a failing scope check is reported as is —
an ErrStyle, never ErrSubject, even when the subject rule is also
violated.  (3) When the type and scope checks both pass, Verify is exactly
the subject check. -/
theorem C5_first_failure_wins (f : Format) (c : Config) :
    (∀ e, typeLinter f c = some e →
      Verify f c = some e ∧ (e = .ErrStyle ∨ e = .ErrType) ∧
        Verify f c ≠ some .ErrSubject)
    ∧ (∀ e, typeLinter f c = none → scopeLinter f c.scopePattern = some e →
      Verify f c = some e ∧ e = .ErrStyle ∧ Verify f c ≠ some .ErrSubject)
    ∧ (typeLinter f c = none → scopeLinter f c.scopePattern = none →
      Verify f c = subjectLinter f c.subjectPattern) := by
  refine ⟨?_, ?_, ?_⟩
  · intro e h
    have hv : Verify f c = some e := by unfold Verify; rw [h]
    have he : e = .ErrStyle ∨ e = .ErrType := by
      rcases typeLinter_cases f c with ht | ht | ht
      · rw [h] at ht; exact absurd ht (by simp)
      · rw [h] at ht; exact Or.inl (Option.some.inj ht)
      · rw [h] at ht; exact Or.inr (Option.some.inj ht)
    refine ⟨hv, he, ?_⟩
    rw [hv]
    rcases he with rfl | rfl <;> simp
  · intro e ht hsc
    have hv : Verify f c = some e := by unfold Verify; rw [ht, hsc]
    have he : e = .ErrStyle := by
      rcases scopeLinter_cases f c.scopePattern with hs | hs
      · rw [hsc] at hs; exact absurd hs (by simp)
      · rw [hsc] at hs; exact Option.some.inj hs
    refine ⟨hv, he, ?_⟩
    rw [hv, he]
    simp
  · intro ht hsc
    unfold Verify
    rw [ht, hsc]

/-- Witness for C5, covering both short-circuits.  `invalid(test): Test`
violates the type rule and the subject rule: ErrType wins.  The message
`feat(api): Bad` passes the type check but violates both the scope rule
(under the default scope pattern) and the subject rule: the scope check's
ErrStyle wins and ErrSubject is never reported, although the subject check
alone would fail. -/
theorem C5_first_failure_wins_witness :
    (Verify ⟨str "invalid", str "test", str "Test"⟩ DefaultConfig = some .ErrType
      ∧ (Err.ErrType = .ErrStyle ∨ Err.ErrType = .ErrType)
      ∧ Verify ⟨str "invalid", str "test", str "Test"⟩ DefaultConfig ≠ some .ErrSubject)
    ∧ (Verify ⟨str "feat", str "api", str "Bad"⟩ DefaultConfig = some .ErrStyle
      ∧ Err.ErrStyle = .ErrStyle
      ∧ Verify ⟨str "feat", str "api", str "Bad"⟩ DefaultConfig ≠ some .ErrSubject)
    ∧ subjectLinter ⟨str "feat", str "api", str "Bad"⟩ DefaultConfig.subjectPattern =
        some .ErrSubject :=
  ⟨(C5_first_failure_wins ⟨str "invalid", str "test", str "Test"⟩ DefaultConfig).1
      .ErrType rfl,
   (C5_first_failure_wins ⟨str "feat", str "api", str "Bad"⟩ DefaultConfig).2.1
      .ErrStyle rfl rfl,
   rfl⟩

/-- Claim C6: a raw line starting with any configured skip prefix bypasses
the whole pipeline before parsing and is unconditionally accepted. -/
theorem C6_skip_prefix_bypasses (s : Str) (c : Config)
    (h : ∃ p ∈ c.skipPrefixes, List.isPrefixOf p s = true) :
    run s c = none := by
  unfold run
  rw [if_pos (List.any_eq_true.2 h)]

/-- Witness for C6: a line starting with `Merge ` whose remainder matches
no rule is accepted under the default configuration. -/
theorem C6_skip_prefix_bypasses_witness :
    run (str "Merge junk with no format at all") DefaultConfig = none :=
  C6_skip_prefix_bypasses (str "Merge junk with no format at all") DefaultConfig
    ⟨str "Merge ", by decide, by decide⟩

/-- Claim C8 (counterexample): parsing `fix: a ` keeps the trailing space
in the subject, so the subject is not the trimmed remainder of the line. -/
theorem C8_counterexample :
    NewFormat (str "fix: a ") = .ok ⟨str "fix", [], ['a', ' ']⟩
    ∧ (['a', ' '] : Str) ≠ str "a" :=
  ⟨rfl, by decide⟩

/-- Claim C8 (amended): the subject of every successfully parsed message
has no leading whitespace (the separator's greedy whitespace run consumes
it all), though trailing whitespace is preserved. -/
theorem C8_subject_no_leading_space (m : Str) (f : Format)
    (h : NewFormat m = .ok f) :
    ∀ c, f.subject.head? = some c → isGoSpace c = false := by
  intro c hc
  obtain ⟨g, hs, -⟩ := NewFormat_ok h
  obtain ⟨s', -, hm⟩ := searchFormat_some hs
  obtain ⟨l, -, hmt⟩ := matchAt_some hm
  exact matchTail_subject_head hmt hc

/-- Witness for C8. -/
theorem C8_subject_no_leading_space_witness : isGoSpace 'a' = false :=
  C8_subject_no_leading_space (str "fix: a") ⟨str "fix", [], str "a"⟩ rfl 'a' rfl

/-- Claim C9: a successfully parsed message has a non-empty subject, and
verifying it never returns ErrFormat or ErrScope under any
configuration. -/
theorem C9_verify_no_format_no_scope (m : Str) (f : Format) (c : Config)
    (h : NewFormat m = .ok f) :
    f.subject ≠ [] ∧ Verify f c ≠ some .ErrFormat ∧
      Verify f c ≠ some .ErrScope := by
  obtain ⟨g, -, hsub⟩ := NewFormat_ok h
  have hv : Verify f c = none ∨ Verify f c = some .ErrStyle ∨
      Verify f c = some .ErrType ∨ Verify f c = some .ErrSubject := by
    unfold Verify
    rcases typeLinter_cases f c with ht | ht | ht <;> rw [ht]
    · rcases scopeLinter_cases f c.scopePattern with hsc | hsc <;> rw [hsc]
      · rcases subjectLinter_cases f c.subjectPattern hsub with hsj | hsj <;> rw [hsj]
        · exact Or.inl rfl
        · exact Or.inr (Or.inr (Or.inr rfl))
      · exact Or.inr (Or.inl rfl)
    · exact Or.inr (Or.inl rfl)
    · exact Or.inr (Or.inr (Or.inl rfl))
  refine ⟨hsub, ?_, ?_⟩ <;> rcases hv with hv | hv | hv | hv <;> rw [hv] <;> simp

/-- Witness for C9. -/
theorem C9_verify_no_format_no_scope_witness :
    (⟨str "feat", str "test", str "samples"⟩ : Format).subject ≠ []
    ∧ Verify ⟨str "feat", str "test", str "samples"⟩ DefaultConfig ≠ some .ErrFormat
    ∧ Verify ⟨str "feat", str "test", str "samples"⟩ DefaultConfig ≠ some .ErrScope :=
  C9_verify_no_format_no_scope (str "feat(test): samples")
    ⟨str "feat", str "test", str "samples"⟩ DefaultConfig rfl

/-- Claim C10: a configured pattern that is not a valid regular expression
makes MatchString fail, which the scope check reports as ErrStyle (for a
non-empty scope) and the subject check as ErrSubject — a verification
failure blaming the message, not a distinct setup error. -/
theorem C10_invalid_regexp_blames_message (f : Format)
    (h1 : f.scope ≠ []) (h2 : f.subject ≠ []) :
    scopeLinter f .invalid = some .ErrStyle
    ∧ subjectLinter f .invalid = some .ErrSubject := by
  constructor
  · unfold scopeLinter
    rw [if_neg fun hl => h1 (List.length_eq_zero.1 hl)]
    rfl
  · unfold subjectLinter
    rw [if_neg (not_not_intro (List.length_pos.2 h2))]
    rfl

/-- Witness for C10. -/
theorem C10_invalid_regexp_blames_message_witness :
    scopeLinter ⟨str "feat", str "api", str "ok"⟩ .invalid = some .ErrStyle
    ∧ subjectLinter ⟨str "feat", str "api", str "ok"⟩ .invalid = some .ErrSubject :=
  C10_invalid_regexp_blames_message ⟨str "feat", str "api", str "ok"⟩
    (by decide) (by decide)

/-- Claim C4: for a parsed message the type check passes exactly when the
type equals (case-sensitively) some vocabulary entry; otherwise a type
differing from its own lowercase form is ErrStyle, and a lowercase unknown
type is ErrType. -/
theorem C4_type_check (m : Str) (f : Format) (c : Config)
    (_h : NewFormat m = .ok f) :
    (typeLinter f c = none ↔ ∃ r ∈ c.typeRules, r.type = f.type)
    ∧ ((∀ r ∈ c.typeRules, r.type ≠ f.type) → f.type ≠ goToLower f.type →
        typeLinter f c = some .ErrStyle)
    ∧ ((∀ r ∈ c.typeRules, r.type ≠ f.type) → f.type = goToLower f.type →
        typeLinter f c = some .ErrType) := by
  have hmem : c.typeRules.any (fun r => r.type == f.type) = true ↔
      ∃ r ∈ c.typeRules, r.type = f.type := by
    rw [List.any_eq_true]
    constructor
    · rintro ⟨r, hr, hb⟩; exact ⟨r, hr, by simpa using hb⟩
    · rintro ⟨r, hr, hb⟩; exact ⟨r, hr, by simpa using hb⟩
  refine ⟨?_, ?_, ?_⟩
  · unfold typeLinter
    constructor
    · intro hnone
      by_cases hany : c.typeRules.any (fun r => r.type == f.type) = true
      · exact hmem.1 hany
      · rw [if_neg hany] at hnone
        split at hnone <;> exact absurd hnone (by simp)
    · intro hex
      rw [if_pos (hmem.2 hex)]
  · intro hall hne
    unfold typeLinter
    rw [if_neg fun hany => ?_, if_pos hne]
    obtain ⟨r, hr, hb⟩ := hmem.1 hany
    exact hall r hr hb
  · intro hall hlow
    unfold typeLinter
    rw [if_neg fun hany => ?_, if_neg (not_not_intro hlow)]
    obtain ⟨r, hr, hb⟩ := hmem.1 hany
    exact hall r hr hb

/-- Witness for C4: `feat` is in the default vocabulary so the type check
passes on the parse of `feat: ok`. -/
theorem C4_type_check_witness :
    typeLinter ⟨str "feat", [], str "ok"⟩ DefaultConfig = none :=
  (C4_type_check (str "feat: ok") ⟨str "feat", [], str "ok"⟩ DefaultConfig rfl).1.mpr
    ⟨⟨str "feat", str "for a new feature for the user, not a new feature for build script."⟩,
      by decide, rfl⟩

/-- Claim C7 (counterexample): the subject `1st` does not begin with an
uppercase letter, yet under the default configuration the subject check
rejects it, so verification of the parse of `docs: 1st` is ErrSubject, not
Pass. -/
theorem C7_counterexample :
    NewFormat (str "docs: 1st") = .ok ⟨str "docs", [], str "1st"⟩
    ∧ Verify ⟨str "docs", [], str "1st"⟩ DefaultConfig = some .ErrSubject :=
  ⟨rfl, rfl⟩

/-- Claim C7 (amended): under the default configuration the subject check
on a non-empty subject passes exactly when the first character is a
lowercase ASCII letter, and returns ErrSubject exactly otherwise (in
particular on an uppercase initial, but also on a digit or punctuation
initial). -/
theorem C7_subject_check (f : Format) (h : f.subject ≠ []) :
    (subjectLinter f DefaultConfig.subjectPattern = none ↔
      ∃ c r, f.subject = c :: r ∧ 'a' ≤ c ∧ c ≤ 'z')
    ∧ (subjectLinter f DefaultConfig.subjectPattern = some .ErrSubject ↔
      ¬ ∃ c r, f.subject = c :: r ∧ 'a' ≤ c ∧ c ≤ 'z') := by
  obtain ⟨c0, r0, hsub⟩ : ∃ c0 r0, f.subject = c0 :: r0 := by
    cases hs : f.subject with
    | nil => exact absurd hs h
    | cons a l => exact ⟨a, l, rfl⟩
  have hiff : (∃ c r, f.subject = c :: r ∧ 'a' ≤ c ∧ c ≤ 'z') ↔
      ('a' ≤ c0 ∧ c0 ≤ 'z') := by
    constructor
    · rintro ⟨c, r, heq, h1, h2⟩
      rw [hsub] at heq
      injection heq with h3 h4
      rw [← h3] at h1 h2
      exact ⟨h1, h2⟩
    · intro hc
      exact ⟨c0, r0, hsub, hc⟩
  have hb2 : defaultSubjectMatches f.subject = true ↔ ('a' ≤ c0 ∧ c0 ≤ 'z') := by
    rw [hsub]
    unfold defaultSubjectMatches
    rw [Bool.and_eq_true]
    constructor
    · rintro ⟨u, v⟩; exact ⟨of_decide_eq_true u, of_decide_eq_true v⟩
    · rintro ⟨u, v⟩; exact ⟨decide_eq_true u, decide_eq_true v⟩
  have hms : matchString DefaultConfig.subjectPattern f.subject =
      Except.ok (defaultSubjectMatches f.subject) := rfl
  have hstep : subjectLinter f DefaultConfig.subjectPattern =
      (if defaultSubjectMatches f.subject = true then none else some .ErrSubject) := by
    unfold subjectLinter
    rw [if_neg (not_not_intro (List.length_pos.2 h)), hms]
    cases defaultSubjectMatches f.subject
    · rw [if_neg (by simp)]
    · rw [if_pos rfl]
  rw [hstep]
  by_cases hc : 'a' ≤ c0 ∧ c0 ≤ 'z'
  · rw [if_pos (hb2.2 hc)]
    exact ⟨⟨fun _ => hiff.2 hc, fun _ => rfl⟩,
      ⟨fun hn => absurd hn (by simp), fun hn => absurd (hiff.2 hc) hn⟩⟩
  · rw [if_neg fun hbv => hc (hb2.1 hbv)]
    exact ⟨⟨fun hn => absurd hn (by simp), fun hex => absurd (hiff.1 hex) hc⟩,
      ⟨fun _ hex => hc (hiff.1 hex), fun _ => rfl⟩⟩

/-- Witness for C7. -/
theorem C7_subject_check_witness :
    subjectLinter ⟨str "docs", [], str "ok"⟩ DefaultConfig.subjectPattern = none :=
  (C7_subject_check ⟨str "docs", [], str "ok"⟩ (by decide)).1.mpr
    ⟨'o', ['k'], rfl, by decide, by decide⟩

/-- Reduction of an attempt whose letter run is followed by a character
other than an opening parenthesis: only the group-absent path remains. -/
theorem matchAt_no_group_step {s : Str} {x : Char} {rest' : Str}
    (hne : ¬ s.takeWhile isAsciiLetter = [])
    (hdw : s.dropWhile isAsciiLetter = x :: rest') (hx : ¬ x = '(') :
    matchAt s = (matchTail (x :: rest')).map
      fun subj => (s.takeWhile isAsciiLetter, ([] : Str), subj) := by
  unfold matchAt
  rw [if_neg hne, hdw]
  split
  · rename_i heq
    exact absurd heq (by simp)
  · rename_i x' r' heq
    injection heq with h1 h2
    subst h1
    subst h2
    rw [if_neg hx]

/-- Reduction of an attempt whose letter run is followed by an opening
parenthesis: the group-present path with its backtracking search. -/
theorem matchAt_group_step {s : Str} {inner : Str}
    (hne : ¬ s.takeWhile isAsciiLetter = [])
    (hdw : s.dropWhile isAsciiLetter = '(' :: inner) :
    matchAt s =
      (match (closeSplits inner).reverse.find? (fun p => (matchTail p.2).isSome) with
      | some p =>
        (matchTail p.2).map fun subj =>
          (s.takeWhile isAsciiLetter, '(' :: p.1 ++ [')'], subj)
      | none => none) := by
  unfold matchAt
  rw [if_neg hne, hdw]
  split
  · rename_i heq
    exact absurd heq (by simp)
  · rename_i x' r' heq
    injection heq with h1 h2
    subst h2
    rw [if_pos h1.symm]

/-- The search at a line whose very first attempt succeeds. -/
theorem searchFormat_head {x : Char} {rest : Str} {r : Str × Str × Str}
    (h : matchAt (x :: rest) = some r) : searchFormat (x :: rest) = some r := by
  rw [searchFormat, h]

/-- Parsing a well-formed line with no parenthesised group succeeds with an
empty scope. -/
theorem parse_no_group (t ws sub' : Str) (c : Char)
    (ht : t ≠ []) (htAll : ∀ x ∈ t, isAsciiLetter x = true)
    (hws : ws ≠ []) (hwsAll : ∀ x ∈ ws, isGoSpace x = true)
    (hc : isGoSpace c = false) (hsub : '\n' ∉ sub') :
    NewFormat (t ++ ':' :: (ws ++ c :: sub')) = .ok ⟨t, [], c :: sub'⟩ := by
  have htw : (t ++ ':' :: (ws ++ c :: sub')).takeWhile isAsciiLetter = t :=
    takeWhile_block _ htAll (by decide)
  have hdw : (t ++ ':' :: (ws ++ c :: sub')).dropWhile isAsciiLetter =
      ':' :: (ws ++ c :: sub') :=
    dropWhile_block _ htAll (by decide)
  have hne : ¬ (t ++ ':' :: (ws ++ c :: sub')).takeWhile isAsciiLetter = [] := by
    rw [htw]; exact ht
  have hma : matchAt (t ++ ':' :: (ws ++ c :: sub')) = some (t, [], c :: sub') := by
    rw [matchAt_no_group_step hne hdw (by decide),
      matchTail_shape hws hwsAll hc hsub, htw]
    rfl
  obtain ⟨a, t', rfl⟩ : ∃ a t', t = a :: t' := by
    cases t with
    | nil => exact absurd rfl ht
    | cons a t' => exact ⟨a, t', rfl⟩
  have hma' : matchAt (a :: (t' ++ ':' :: (ws ++ c :: sub'))) =
      some (a :: t', [], c :: sub') := hma
  have hsf : searchFormat ((a :: t') ++ ':' :: (ws ++ c :: sub')) =
      some (a :: t', [], c :: sub') := searchFormat_head hma'
  unfold NewFormat
  rw [hsf]
  rfl

/-- Parsing a line with an empty parenthesised group, whose remainder
contains no further closing parenthesis, is a scope error. -/
theorem parse_empty_group (t ws sub' : Str) (c : Char)
    (ht : t ≠ []) (htAll : ∀ x ∈ t, isAsciiLetter x = true)
    (hws : ws ≠ []) (hwsAll : ∀ x ∈ ws, isGoSpace x = true)
    (hc : isGoSpace c = false) (hpar : ')' ∉ c :: sub') (hsub : '\n' ∉ sub') :
    NewFormat (t ++ '(' :: ')' :: ':' :: (ws ++ c :: sub')) = .error .ErrScope := by
  have hnp : ')' ∉ (':' :: (ws ++ c :: sub')) := by
    intro hmem
    rcases List.mem_cons.1 hmem with heq | hmem2
    · exact absurd heq (by decide)
    · rcases List.mem_append.1 hmem2 with hel | hel
      · have := hwsAll ')' hel
        simp [isGoSpace] at this
      · exact hpar hel
  have hcs : closeSplits (')' :: ':' :: (ws ++ c :: sub')) =
      [(([] : Str), ':' :: (ws ++ c :: sub'))] := by
    rw [closeSplits, if_pos rfl, if_neg (by decide), closeSplits_of_not_mem hnp]
    rfl
  have hmt := matchTail_shape hws hwsAll hc hsub
  have htw : (t ++ '(' :: ')' :: ':' :: (ws ++ c :: sub')).takeWhile isAsciiLetter = t :=
    takeWhile_block _ htAll (by decide)
  have hdw : (t ++ '(' :: ')' :: ':' :: (ws ++ c :: sub')).dropWhile isAsciiLetter =
      '(' :: ')' :: ':' :: (ws ++ c :: sub') :=
    dropWhile_block _ htAll (by decide)
  have hne : ¬ (t ++ '(' :: ')' :: ':' :: (ws ++ c :: sub')).takeWhile isAsciiLetter = [] := by
    rw [htw]; exact ht
  have hfind : ((closeSplits (')' :: ':' :: (ws ++ c :: sub'))).reverse.find?
      (fun p => (matchTail p.2).isSome)) =
      some (([] : Str), ':' :: (ws ++ c :: sub')) := by
    rw [hcs, List.reverse_singleton]
    exact List.find?_cons_of_pos _ (by rw [hmt]; rfl)
  have hma : matchAt (t ++ '(' :: ')' :: ':' :: (ws ++ c :: sub')) =
      some (t, ['(', ')'], c :: sub') := by
    rw [matchAt_group_step hne hdw, hfind]
    simp [hmt, htw]
  obtain ⟨a, t', rfl⟩ : ∃ a t', t = a :: t' := by
    cases t with
    | nil => exact absurd rfl ht
    | cons a t' => exact ⟨a, t', rfl⟩
  have hma' : matchAt (a :: (t' ++ '(' :: ')' :: ':' :: (ws ++ c :: sub'))) =
      some (a :: t', ['(', ')'], c :: sub') := hma
  have hsf : searchFormat ((a :: t') ++ '(' :: ')' :: ':' :: (ws ++ c :: sub')) =
      some (a :: t', ['(', ')'], c :: sub') := searchFormat_head hma'
  unfold NewFormat
  rw [hsf]
  rfl

/-- If the line is `pre ++ ':' :: rest` with no colon in `pre` and only
whitespace in `rest`, a tail-match suffix starting at a colon must start at
that unique colon. -/
theorem suffix_colon_eq {pre rest : Str} {cc : Char} {rr : Str}
    (hp : ':' ∉ pre) (hr : ∀ x ∈ rest, isGoSpace x = true)
    (hlm : (':' :: cc :: rr) <:+ pre ++ ':' :: rest) :
    cc :: rr = rest := by
  induction pre with
  | nil =>
    rcases List.suffix_cons_iff.1 hlm with heq | hsuf
    · exact (List.cons_eq_cons.1 heq).2
    · exfalso
      have hmem : (':' : Char) ∈ rest := List.IsSuffix.mem (by simp) hsuf
      have := hr ':' hmem
      simp [isGoSpace] at this
  | cons p pre' ih =>
    rw [List.cons_append] at hlm
    rcases List.suffix_cons_iff.1 hlm with heq | hsuf
    · exfalso
      have h1 : (':' : Char) = p := (List.cons_eq_cons.1 heq).1
      exact hp (by rw [h1]; exact List.mem_cons_self _ _)
    · exact ih (fun hm => hp (List.mem_cons_of_mem _ hm)) hsuf

/-- If the search result has an empty subject submatch, NewFormat is a
format error. -/
theorem NewFormat_empty_subject {m : Str} {t g : Str}
    (hsf : searchFormat m = some (t, g, [])) :
    NewFormat m = .error .ErrFormat := by
  unfold NewFormat
  rw [hsf]
  simp

/-- Parsing a line whose unique colon is followed only by whitespace is a
format error, whatever comes before the colon. -/
theorem parse_blank_after_colon (pre rest : Str)
    (hp : ':' ∉ pre) (hr : ∀ x ∈ rest, isGoSpace x = true) :
    NewFormat (pre ++ ':' :: rest) = .error .ErrFormat := by
  cases hsf : searchFormat (pre ++ ':' :: rest) with
  | none =>
    unfold NewFormat
    rw [hsf]
  | some r =>
    obtain ⟨t, g, subj⟩ := r
    obtain ⟨s', hs', hma⟩ := searchFormat_some hsf
    obtain ⟨l, hl, hmt⟩ := matchAt_some hma
    have hlm : l <:+ pre ++ ':' :: rest := hl.trans hs'
    obtain ⟨cc, rr, rfl, hcc, hsubj⟩ := matchTail_some hmt
    have heq : cc :: rr = rest := suffix_colon_eq hp hr hlm
    have hempty : subj = [] := by
      have : (cc :: rr).dropWhile isGoSpace = [] := by
        rw [heq]
        exact List.dropWhile_eq_nil_iff.2 hr
      have hsubj2 : subj =
          ((cc :: rr).dropWhile isGoSpace).takeWhile isDotChar := hsubj
      rw [hsubj2, this]
      rfl
    rw [hempty] at hsf
    exact NewFormat_empty_subject hsf

/-- Claim C3 (counterexample): the line `feat(): x): y` has a present but
empty parenthesised group, yet parsing does not return ScopeError: the
greedy `.*` inside the group extends to the later `)` and the parse
succeeds with scope `): x`. -/
theorem C3_counterexample :
    NewFormat (str "feat(): x): y") = .ok ⟨str "feat", str "): x", str "y"⟩ := rfl

/-- Claim C3 (amended): the three empty states map to three outcomes, on
lines of the canonical shapes.  (a) A line `type ':' ws subject` with a
non-empty letter type, a non-empty whitespace run and a non-whitespace-led,
newline-free subject parses successfully with an empty scope.  (b) The same
with an empty group `()` before the colon parses to ScopeError, provided
the subject contains no further `)` (otherwise the greedy group can swallow
it, as the counterexample shows).  (c) A line whose unique colon is
followed only by whitespace parses to FormatError. -/
theorem C3_three_empty_states :
    (∀ (t ws sub' : Str) (c : Char), t ≠ [] → (∀ x ∈ t, isAsciiLetter x = true) →
      ws ≠ [] → (∀ x ∈ ws, isGoSpace x = true) → isGoSpace c = false → '\n' ∉ sub' →
      NewFormat (t ++ ':' :: (ws ++ c :: sub')) = .ok ⟨t, [], c :: sub'⟩)
    ∧ (∀ (t ws sub' : Str) (c : Char), t ≠ [] → (∀ x ∈ t, isAsciiLetter x = true) →
      ws ≠ [] → (∀ x ∈ ws, isGoSpace x = true) → isGoSpace c = false →
      ')' ∉ c :: sub' → '\n' ∉ sub' →
      NewFormat (t ++ '(' :: ')' :: ':' :: (ws ++ c :: sub')) = .error .ErrScope)
    ∧ (∀ (pre rest : Str), ':' ∉ pre → (∀ x ∈ rest, isGoSpace x = true) →
      NewFormat (pre ++ ':' :: rest) = .error .ErrFormat) :=
  ⟨parse_no_group, parse_empty_group, parse_blank_after_colon⟩

/-- Witness for C3: the spec's own three examples, one per empty state. -/
theorem C3_three_empty_states_witness :
    NewFormat (str "feat: global") = .ok ⟨str "feat", [], str "global"⟩
    ∧ NewFormat (str "feat(): global") = .error .ErrScope
    ∧ NewFormat (str "feat(test):   ") = .error .ErrFormat :=
  ⟨C3_three_empty_states.1 (str "feat") (str " ") (str "lobal") 'g' (by decide)
      (by decide) (by decide) (by decide) (by decide) (by decide),
   C3_three_empty_states.2.1 (str "feat") (str " ") (str "lobal") 'g' (by decide)
      (by decide) (by decide) (by decide) (by decide) (by decide) (by decide),
   C3_three_empty_states.2.2 (str "feat(test)") (str "   ") (by decide) (by decide)⟩
